import Mathlib

/-!
Verification of the transport-address abstraction layer (`addr.c`).

The C source operates on `struct sockaddr` / `sockaddr_in` / `sockaddr_in6`
records reinterpreted through a common family tag.  We embed a socket address
as a structure carrying the family tag and the family-specific fields that the
source reads and writes: the encoded (network-byte-order) 16-bit port field,
the 4-byte IPv4 address, the 16-byte IPv6 address, and the remaining IPv6-only
fields (`sin6_flowinfo`, `sin6_scope_id`).  Address bytes are lists of byte
values; reads of byte `i` model the C pointer accesses `b[i]`.

The platform resolver (`getaddrinfo`) is an external collaborator; it is
modelled as a function from hostname/service to an optional list of `addrinfo`
entries (`none` models resolver failure).
-/

set_option autoImplicit false

/-- Address-family constants (values as on Linux; only their distinctness
matters to the source). -/
def AF_INET : Nat := 2

/-- The IPv6 address family constant. -/
def AF_INET6 : Nat := 10

/-- sizeof(struct sockaddr_in) on the modelled platform. -/
def sizeof_sockaddr_in : Nat := 16

/-- sizeof(struct sockaddr_in6) on the modelled platform. -/
def sizeof_sockaddr_in6 : Nat := 28

/-- A socket-address record, embedding the fields of `struct sockaddr_in` /
`struct sockaddr_in6` that the source accesses.  `port` holds the encoded
(network-byte-order) value of `sin_port` / `sin6_port`; `addr4` the bytes of
`sin_addr`; `addr6` the bytes of `sin6_addr`. -/
structure SockAddr where
  sa_family : Nat
  port : Nat
  addr4 : List Nat
  addr6 : List Nat
  flowinfo : Nat
  scope_id : Nat
deriving DecidableEq, Repr

/-- Read byte `i` of an address byte list, the model of the C accesses
`((const uint8_t *)&addr)[i]`. -/
def byteAt (b : List Nat) (i : Nat) : Nat := b.getD i 0

/-- Host-to-network conversion of a 16-bit value: the byte swap performed by
`htons` on a little-endian host. -/
def htons (x : Nat) : Nat := (x % 256) * 256 + (x / 256) % 256

/-- Network-to-host conversion of a 16-bit value (`ntohs`); the same byte
swap, inverse to `htons`. -/
def ntohs (x : Nat) : Nat := (x % 256) * 256 + (x / 256) % 256

/-- `addr_get_len`: the encoded length of the record, dispatching on the
family tag. -/
def addr_get_len (sa : SockAddr) : Nat :=
  if sa.sa_family = AF_INET then sizeof_sockaddr_in
  else if sa.sa_family = AF_INET6 then sizeof_sockaddr_in6
  else 0

/-- `addr_get_port`: the port in host byte order, 0 for unknown families. -/
def addr_get_port (sa : SockAddr) : Nat :=
  if sa.sa_family = AF_INET then ntohs sa.port
  else if sa.sa_family = AF_INET6 then ntohs sa.port
  else 0

/-- `addr_set_port`: writes the network-byte-order port into the
family-appropriate field, returning 0 on success and -1 (without mutation)
for unknown families.  The pair holds the C return value and the record after
the call. -/
def addr_set_port (sa : SockAddr) (port : Nat) : Int × SockAddr :=
  if sa.sa_family = AF_INET then (0, { sa with port := htons port })
  else if sa.sa_family = AF_INET6 then (0, { sa with port := htons port })
  else (-1, sa)

/-- `IN6_IS_ADDR_LOOPBACK`: the address is `::1`. -/
def in6_is_addr_loopback (b : List Nat) : Prop :=
  (∀ i < 15, byteAt b i = 0) ∧ byteAt b 15 = 1

instance (b : List Nat) : Decidable (in6_is_addr_loopback b) := by
  unfold in6_is_addr_loopback; infer_instance

/-- `IN6_IS_ADDR_LINKLOCAL`: first byte 0xFE and top two bits of the second
byte equal to 10 (prefix `fe80::/10`). -/
def in6_is_addr_linklocal (b : List Nat) : Prop :=
  byteAt b 0 = 0xFE ∧ Nat.land (byteAt b 1) 0xC0 = 0x80

instance (b : List Nat) : Decidable (in6_is_addr_linklocal b) := by
  unfold in6_is_addr_linklocal; infer_instance

/-- `IN6_IS_ADDR_V4MAPPED`: bytes 0..9 zero and bytes 10,11 equal to 0xFF. -/
def in6_is_addr_v4mapped (b : List Nat) : Prop :=
  (∀ i < 10, byteAt b i = 0) ∧ byteAt b 10 = 0xFF ∧ byteAt b 11 = 0xFF

instance (b : List Nat) : Decidable (in6_is_addr_v4mapped b) := by
  unfold in6_is_addr_v4mapped; infer_instance

/-- `addr_is_local`: classify loopback / link-local addresses, treating an
IPv4-mapped IPv6 address through its embedded IPv4 address (last 4 bytes). -/
def addr_is_local (sa : SockAddr) : Bool :=
  if sa.sa_family = AF_INET then
    (if byteAt sa.addr4 0 = 127 then true
     else if byteAt sa.addr4 0 = 169 ∧ byteAt sa.addr4 1 = 254 then true
     else false)
  else if sa.sa_family = AF_INET6 then
    (if in6_is_addr_loopback sa.addr6 then true
     else if in6_is_addr_linklocal sa.addr6 then true
     else if in6_is_addr_v4mapped sa.addr6 then
       (if byteAt sa.addr6 12 = 127 then true
        else if byteAt sa.addr6 12 = 169 ∧ byteAt sa.addr6 13 = 254 then true
        else false)
     else false)
  else false

/-- `addr_is_temp_inet6`: true for a non-local IPv6 address whose
interface-identifier bit 0x02 at byte offset 8 is clear. -/
def addr_is_temp_inet6 (sa : SockAddr) : Bool :=
  if sa.sa_family ≠ AF_INET6 then false
  else if addr_is_local sa = true then false
  else if Nat.land (byteAt sa.addr6 8) 0x02 ≠ 0 then false
  else true

/-- `addr_unmap_inet6_v4mapped`: rewrite an IPv4-mapped IPv6 record in place
as a zero-initialized IPv4 record holding the embedded address and the same
encoded port, updating the length.  The triple holds the C boolean result,
the record after the call, and the length after the call.  The source first
snapshots the IPv6 fields, then `memset`s the `sockaddr_in` extent to zero and
writes family, port and address; the IPv6-only fields of the result model the
zeroed storage. -/
def addr_unmap_inet6_v4mapped (sa : SockAddr) (len : Nat) :
    Bool × SockAddr × Nat :=
  if sa.sa_family ≠ AF_INET6 then (false, sa, len)
  else if ¬ in6_is_addr_v4mapped sa.addr6 then (false, sa, len)
  else
    (true,
     { sa_family := AF_INET
       port := sa.port
       addr4 := [byteAt sa.addr6 12, byteAt sa.addr6 13,
                 byteAt sa.addr6 14, byteAt sa.addr6 15]
       addr6 := List.replicate 16 0
       flowinfo := 0
       scope_id := 0 },
     sizeof_sockaddr_in)

/-- `addr_map_inet6_v4mapped`: rewrite an IPv4 record in place as a
zero-initialized IPv4-mapped IPv6 record (10 zero bytes, 2 bytes 0xFF, then
the IPv4 address), keeping the encoded port and updating the length. -/
def addr_map_inet6_v4mapped (sa : SockAddr) (len : Nat) :
    Bool × SockAddr × Nat :=
  if sa.sa_family ≠ AF_INET then (false, sa, len)
  else
    (true,
     { sa_family := AF_INET6
       port := sa.port
       addr4 := List.replicate 4 0
       addr6 := List.replicate 10 0 ++ [0xFF, 0xFF] ++
                [byteAt sa.addr4 0, byteAt sa.addr4 1,
                 byteAt sa.addr4 2, byteAt sa.addr4 3]
       flowinfo := 0
       scope_id := 0 },
     sizeof_sockaddr_in6)

/-- The test `memcmp(x, y, n) == 0` over two byte regions: the first `n`
bytes agree. -/
def bytes_eq (x y : List Nat) (n : Nat) : Prop :=
  ∀ i < n, byteAt x i = byteAt y i

instance (x y : List Nat) (n : Nat) : Decidable (bytes_eq x y n) := by
  unfold bytes_eq; infer_instance

/-- `addr_is_equal`: false if the families differ; otherwise compare the raw
address bytes (`memcmp` over 4 or 16 bytes) and, when `compare_ports` is set,
the encoded port fields; unknown common families are never equal. -/
def addr_is_equal (a b : SockAddr) (compare_ports : Bool) : Bool :=
  if a.sa_family ≠ b.sa_family then false
  else if a.sa_family = AF_INET then
    (if ¬ bytes_eq a.addr4 b.addr4 4 then false
     else if compare_ports ∧ a.port ≠ b.port then false
     else true)
  else if a.sa_family = AF_INET6 then
    (if ¬ bytes_eq a.addr6 b.addr6 16 then false
     else if compare_ports ∧ a.port ≠ b.port then false
     else true)
  else false

/-- One entry of the `addrinfo` list returned by the platform resolver. -/
structure AddrInfo where
  ai_family : Nat
  ai_addr : SockAddr
  ai_addrlen : Nat
deriving DecidableEq, Repr

/-- `addr_record_t`: an encoded socket address plus its valid length. -/
structure AddrRecordT where
  addr : SockAddr
  len : Nat
deriving DecidableEq, Repr

/-- The loop-body test `ai->ai_family == AF_INET || ai->ai_family == AF_INET6`
of `addr_resolve`. -/
def ai_matches (ai : AddrInfo) : Bool :=
  ai.ai_family == AF_INET || ai.ai_family == AF_INET6

/-- The copy `memcpy(&records->addr, ai->ai_addr, ai->ai_addrlen);
records->len = ai->ai_addrlen;` of `addr_resolve`. -/
def toRecord (ai : AddrInfo) : AddrRecordT :=
  { addr := ai.ai_addr, len := ai.ai_addrlen }

/-- The iteration of `addr_resolve` over the `addrinfo` list: `pos` is the
write cursor (the distance of `records` from its start), writing stops when
the cursor reaches the capacity (`records != end` fails), and `ret` counts
every matching entry regardless. -/
def addr_resolve_loop :
    List AddrInfo → List AddrRecordT → Nat → Nat → Nat × List AddrRecordT
  | [], recs, _, ret => (ret, recs)
  | ai :: rest, recs, pos, ret =>
    if ai_matches ai then
      if pos < recs.length then
        addr_resolve_loop rest (recs.set pos (toRecord ai)) (pos + 1) (ret + 1)
      else
        addr_resolve_loop rest recs pos (ret + 1)
    else
      addr_resolve_loop rest recs pos ret

/-- `addr_resolve`: invoke the platform resolver for the hostname/service
pair; on failure return -1 with the caller records untouched, on success copy
the matching candidates into the records (capacity `records.length`, the
`count` argument of the C function) and return the total number of matching
candidates.  `getaddrinfo` abstracts the platform resolver collaborator. -/
def addr_resolve (getaddrinfo : String → String → Option (List AddrInfo))
    (hostname service : String) (records : List AddrRecordT) :
    Int × List AddrRecordT :=
  match getaddrinfo hostname service with
  | none => (-1, records)
  | some ai_list =>
    let r := addr_resolve_loop ai_list records 0 0
    ((r.1 : Int), r.2)

/-! ### Sample records used to instantiate the theorems below -/

/-- A concrete IPv4 record (192.0.2.1, encoded port for 443). -/
def sampleInet : SockAddr := ⟨AF_INET, htons 443, [192, 0, 2, 1], [], 0, 0⟩

/-- A concrete global IPv6 record (2001:db8::1). -/
def sampleInet6 : SockAddr :=
  ⟨AF_INET6, 7, [], [0x20, 1, 0x0d, 0xb8, 0, 0, 0, 0, 0, 0, 0, 0, 0, 0, 0, 1], 0, 0⟩

/-- A concrete record of an unknown family (family tag 0). -/
def sampleUnknownFam : SockAddr := ⟨0, 3, [1, 2, 3, 4], [], 0, 0⟩

/-- A concrete IPv4-mapped IPv6 record (::ffff:8.8.8.8). -/
def sampleMapped : SockAddr :=
  ⟨AF_INET6, htons 443, [], [0, 0, 0, 0, 0, 0, 0, 0, 0, 0, 255, 255, 8, 8, 8, 8], 0, 0⟩

/-- An empty output record for resolver calls. -/
def blankRecord : AddrRecordT := ⟨⟨0, 0, [], [], 0, 0⟩, 0⟩

/-- A resolver collaborator that always fails. -/
def failResolver : String → String → Option (List AddrInfo) := fun _ _ => none

/-! ### Helper lemmas -/

/-- The byte swaps of `htons` and `ntohs` are mutually inverse on 16-bit
values. -/
theorem ntohs_htons (p : Nat) (hp : p < 65536) : ntohs (htons p) = p := by
  have hhi : p / 256 < 256 := by omega
  have hmod : p / 256 % 256 = p / 256 := Nat.mod_eq_of_lt hhi
  have e1 : (p % 256 * 256 + p / 256 % 256) % 256 = p / 256 := by
    rw [hmod, Nat.add_comm, Nat.add_mul_mod_self_right, Nat.mod_eq_of_lt hhi]
  have e2 : (p % 256 * 256 + p / 256 % 256) / 256 = p % 256 := by
    rw [hmod, Nat.add_comm,
      Nat.add_mul_div_right _ _ (by norm_num : (0 : Nat) < 256),
      Nat.div_eq_of_lt hhi, Nat.zero_add]
  show (htons p % 256) * 256 + (htons p / 256) % 256 = p
  have hx : htons p = p % 256 * 256 + p / 256 % 256 := rfl
  rw [hx, e1, e2]
  omega

/-- A list of four bytes is determined by its four reads. -/
theorem eq_four_bytes (l : List Nat) (h : l.length = 4) :
    l = [byteAt l 0, byteAt l 1, byteAt l 2, byteAt l 3] := by
  rcases l with _ | ⟨a, _ | ⟨b, _ | ⟨c, _ | ⟨d, _ | ⟨e, t⟩⟩⟩⟩⟩ <;>
    simp_all [byteAt]


theorem exists_cons_of_length_succ {α : Type} (l : List α) (n : Nat)
    (h : l.length = n + 1) : ∃ a t, l = a :: t ∧ t.length = n := by
  cases l with
  | nil => simp at h
  | cons a t => exact ⟨a, t, rfl, by simpa using h⟩

theorem v4mapped_bytes_eq (l : List Nat) (h : l.length = 16)
    (hm : in6_is_addr_v4mapped l) :
    l = List.replicate 10 0 ++ [0xFF, 0xFF] ++
      [byteAt l 12, byteAt l 13, byteAt l 14, byteAt l 15] := by
  obtain ⟨b0, t0, rfl, h0⟩ := exists_cons_of_length_succ _ _ h
  obtain ⟨b1, t1, rfl, h1⟩ := exists_cons_of_length_succ _ _ h0
  obtain ⟨b2, t2, rfl, h2⟩ := exists_cons_of_length_succ _ _ h1
  obtain ⟨b3, t3, rfl, h3⟩ := exists_cons_of_length_succ _ _ h2
  obtain ⟨b4, t4, rfl, h4⟩ := exists_cons_of_length_succ _ _ h3
  obtain ⟨b5, t5, rfl, h5⟩ := exists_cons_of_length_succ _ _ h4
  obtain ⟨b6, t6, rfl, h6⟩ := exists_cons_of_length_succ _ _ h5
  obtain ⟨b7, t7, rfl, h7⟩ := exists_cons_of_length_succ _ _ h6
  obtain ⟨b8, t8, rfl, h8⟩ := exists_cons_of_length_succ _ _ h7
  obtain ⟨b9, t9, rfl, h9⟩ := exists_cons_of_length_succ _ _ h8
  obtain ⟨c10, t10, rfl, ha⟩ := exists_cons_of_length_succ _ _ h9
  obtain ⟨c11, t11, rfl, hb⟩ := exists_cons_of_length_succ _ _ ha
  obtain ⟨c12, t12, rfl, hc⟩ := exists_cons_of_length_succ _ _ hb
  obtain ⟨c13, t13, rfl, hd⟩ := exists_cons_of_length_succ _ _ hc
  obtain ⟨c14, t14, rfl, he⟩ := exists_cons_of_length_succ _ _ hd
  obtain ⟨c15, t15, rfl, hf⟩ := exists_cons_of_length_succ _ _ he
  obtain rfl : t15 = [] := List.eq_nil_of_length_eq_zero hf
  obtain ⟨hz, h10x, h11x⟩ := hm
  have e0 : b0 = 0 := hz 0 (by norm_num)
  have e1 : b1 = 0 := hz 1 (by norm_num)
  have e2 : b2 = 0 := hz 2 (by norm_num)
  have e3 : b3 = 0 := hz 3 (by norm_num)
  have e4 : b4 = 0 := hz 4 (by norm_num)
  have e5 : b5 = 0 := hz 5 (by norm_num)
  have e6 : b6 = 0 := hz 6 (by norm_num)
  have e7 : b7 = 0 := hz 7 (by norm_num)
  have e8 : b8 = 0 := hz 8 (by norm_num)
  have e9 : b9 = 0 := hz 9 (by norm_num)
  have f10 : c10 = 255 := h10x
  have f11 : c11 = 255 := h11x
  subst e0 e1 e2 e3 e4 e5 e6 e7 e8 e9 f10 f11
  rfl

theorem set_take_succ {α : Type} (l : List α) (n : Nat) (a : α)
    (h : n < l.length) : (l.set n a).take (n + 1) = l.take n ++ [a] := by
  induction l generalizing n with
  | nil => simp at h
  | cons x xs ih =>
    cases n with
    | zero => simp
    | succ m =>
      simp only [List.set_cons_succ, List.take_succ_cons, List.cons_append]
      rw [ih]
      simpa using h

theorem set_drop_of_lt {α : Type} (l : List α) (n m : Nat) (a : α)
    (h : n < m) : (l.set n a).drop m = l.drop m := by
  induction l generalizing n m with
  | nil => rfl
  | cons x xs ih =>
    cases n with
    | zero =>
      cases m with
      | zero => omega
      | succ k => simp
    | succ j =>
      cases m with
      | zero => omega
      | succ k =>
        simp only [List.set_cons_succ, List.drop_succ_cons]
        exact ih j k (by omega)

/-! ### Claim theorems -/

/-- C7: for every record whose family is IPv4 or IPv6, `addr_get_len` returns
the exact fixed byte size of that family's address structure; for every
record of any other family it returns 0. -/
theorem addr_get_len_spec (sa : SockAddr) :
    (sa.sa_family = AF_INET → addr_get_len sa = sizeof_sockaddr_in) ∧
    (sa.sa_family = AF_INET6 → addr_get_len sa = sizeof_sockaddr_in6) ∧
    (sa.sa_family ≠ AF_INET → sa.sa_family ≠ AF_INET6 →
      addr_get_len sa = 0) := by
  refine ⟨fun h => ?_, fun h => ?_, fun h1 h2 => ?_⟩
  · simp [addr_get_len, h]
  · simp [addr_get_len, h, AF_INET, AF_INET6]
  · simp [addr_get_len, h1, h2]

theorem addr_get_len_spec_witness :
    addr_get_len sampleInet = sizeof_sockaddr_in ∧
    addr_get_len sampleInet6 = sizeof_sockaddr_in6 ∧
    addr_get_len sampleUnknownFam = 0 :=
  ⟨(addr_get_len_spec sampleInet).1 rfl,
   (addr_get_len_spec sampleInet6).2.1 rfl,
   (addr_get_len_spec sampleUnknownFam).2.2 (by decide) (by decide)⟩

/-- C6: if the platform resolver fails for a hostname/service pair,
`addr_resolve` returns a negative failure indicator and the caller's output
records are left completely unchanged. -/
theorem addr_resolve_failure_spec
    (getaddrinfo : String → String → Option (List AddrInfo))
    (hostname service : String) (records : List AddrRecordT)
    (hfail : getaddrinfo hostname service = none) :
    (addr_resolve getaddrinfo hostname service records).1 < 0 ∧
    (addr_resolve getaddrinfo hostname service records).2 = records := by
  simp [addr_resolve, hfail]

theorem addr_resolve_failure_spec_witness :
    failResolver "unresolvable.invalid" "3478" = none ∧
    (addr_resolve failResolver "unresolvable.invalid" "3478"
        [blankRecord]).1 < 0 ∧
    (addr_resolve failResolver "unresolvable.invalid" "3478"
        [blankRecord]).2 = [blankRecord] :=
  ⟨rfl, addr_resolve_failure_spec failResolver "unresolvable.invalid" "3478"
    [blankRecord] rfl⟩

/-- C8 counterexample: on a record of an unknown family (family tag 0),
`addr_set_port` is a failing no-op and `addr_get_port` returns 0, so setting
port 1 and reading it back does not return 1; the claim fails for families
other than IPv4/IPv6. -/
theorem addr_set_get_port_counterexample :
    ¬ addr_get_port
        (addr_set_port (SockAddr.mk 0 3 [1, 2, 3, 4] [] 0 0) 1).2 = 1 := by
  decide

/-- C8 (amended): for every record whose family is IPv4 or IPv6 and every
16-bit port value, `addr_set_port` followed by `addr_get_port` returns the
same port value. -/
theorem addr_set_get_port_roundtrip (sa : SockAddr) (p : Nat)
    (hp : p < 65536)
    (hf : sa.sa_family = AF_INET ∨ sa.sa_family = AF_INET6) :
    addr_get_port (addr_set_port sa p).2 = p := by
  rcases hf with h | h <;>
    simp [addr_set_port, addr_get_port, h, AF_INET, AF_INET6,
      ntohs_htons p hp]

theorem addr_set_get_port_roundtrip_witness :
    ((65535 : Nat) < 65536 ∧
      (sampleInet.sa_family = AF_INET ∨ sampleInet.sa_family = AF_INET6)) ∧
    addr_get_port (addr_set_port sampleInet 65535).2 = 65535 :=
  ⟨⟨by norm_num, Or.inl rfl⟩,
   addr_set_get_port_roundtrip sampleInet 65535 (by norm_num) (Or.inl rfl)⟩

/-- C9: every IPv4-mapped IPv6 record that is not classified local is
temporary, because byte offset 8 of a mapped address is zero and hence bit
0x02 is clear. -/
theorem v4mapped_nonlocal_is_temp (sa : SockAddr)
    (hfam : sa.sa_family = AF_INET6)
    (hmap : in6_is_addr_v4mapped sa.addr6)
    (hloc : addr_is_local sa = false) :
    addr_is_temp_inet6 sa = true := by
  have h8 : byteAt sa.addr6 8 = 0 := hmap.1 8 (by norm_num)
  have hl0 : Nat.land 0 2 = 0 := by decide
  simp [addr_is_temp_inet6, hfam, hloc, h8, hl0]

theorem v4mapped_nonlocal_is_temp_witness :
    (sampleMapped.sa_family = AF_INET6 ∧
      in6_is_addr_v4mapped sampleMapped.addr6 ∧
      addr_is_local sampleMapped = false) ∧
    addr_is_temp_inet6 sampleMapped = true :=
  ⟨⟨rfl, by decide, by decide⟩,
   v4mapped_nonlocal_is_temp sampleMapped rfl (by decide) (by decide)⟩

/-- C10: for IPv4/IPv6 records `addr_set_port` succeeds and modifies only the
port field, leaving the family tag, address bytes and every other field
unchanged; for any other family it fails and leaves the record unchanged. -/
theorem addr_set_port_frame (sa : SockAddr) (p : Nat) :
    ((sa.sa_family = AF_INET ∨ sa.sa_family = AF_INET6) →
      (addr_set_port sa p).1 = 0 ∧
      (addr_set_port sa p).2.sa_family = sa.sa_family ∧
      (addr_set_port sa p).2.addr4 = sa.addr4 ∧
      (addr_set_port sa p).2.addr6 = sa.addr6 ∧
      (addr_set_port sa p).2.flowinfo = sa.flowinfo ∧
      (addr_set_port sa p).2.scope_id = sa.scope_id ∧
      (addr_set_port sa p).2.port = htons p) ∧
    (sa.sa_family ≠ AF_INET → sa.sa_family ≠ AF_INET6 →
      (addr_set_port sa p).1 = -1 ∧ (addr_set_port sa p).2 = sa) := by
  constructor
  · rintro (h | h) <;> simp [addr_set_port, h, AF_INET, AF_INET6]
  · intro h1 h2
    simp [addr_set_port, h1, h2]

theorem addr_set_port_frame_witness :
    ((addr_set_port sampleInet 8080).1 = 0 ∧
      (addr_set_port sampleInet 8080).2.sa_family = sampleInet.sa_family ∧
      (addr_set_port sampleInet 8080).2.addr4 = sampleInet.addr4 ∧
      (addr_set_port sampleInet 8080).2.addr6 = sampleInet.addr6 ∧
      (addr_set_port sampleInet 8080).2.flowinfo = sampleInet.flowinfo ∧
      (addr_set_port sampleInet 8080).2.scope_id = sampleInet.scope_id ∧
      (addr_set_port sampleInet 8080).2.port = htons 8080) ∧
    ((addr_set_port sampleUnknownFam 8080).1 = -1 ∧
      (addr_set_port sampleUnknownFam 8080).2 = sampleUnknownFam) :=
  ⟨(addr_set_port_frame sampleInet 8080).1 (Or.inl rfl),
   (addr_set_port_frame sampleUnknownFam 8080).2 (by decide) (by decide)⟩

/-- C4: `addr_is_temp_inet6` returns false for any non-IPv6 or local record;
otherwise it returns true exactly when bit 0x02 of byte offset 8 of the
16-byte IPv6 address is clear. -/
theorem addr_is_temp_inet6_iff (sa : SockAddr) :
    addr_is_temp_inet6 sa = true ↔
      sa.sa_family = AF_INET6 ∧ addr_is_local sa = false ∧
        Nat.land (byteAt sa.addr6 8) 0x02 = 0 := by
  unfold addr_is_temp_inet6
  split_ifs with h1 h2 h3 <;> simp_all

/-- C3: `addr_is_local` returns true exactly when the record is IPv4 with
first octet 127 or first two octets 169.254, or IPv6 and loopback,
link-local, or IPv4-mapped with the embedded IPv4 address satisfying the same
127 / 169.254 rule; any other family or address yields false. -/
theorem addr_is_local_iff (sa : SockAddr) :
    addr_is_local sa = true ↔
      (sa.sa_family = AF_INET ∧
        (byteAt sa.addr4 0 = 127 ∨
          (byteAt sa.addr4 0 = 169 ∧ byteAt sa.addr4 1 = 254))) ∨
      (sa.sa_family = AF_INET6 ∧
        (in6_is_addr_loopback sa.addr6 ∨ in6_is_addr_linklocal sa.addr6 ∨
          (in6_is_addr_v4mapped sa.addr6 ∧
            (byteAt sa.addr6 12 = 127 ∨
              (byteAt sa.addr6 12 = 169 ∧ byteAt sa.addr6 13 = 254))))) := by
  unfold addr_is_local
  split_ifs with h1 h2 h3 h4 h5 h6 h7 h8 h9 <;>
    simp_all [AF_INET, AF_INET6]

/-- C5: `addr_is_equal` returns false when the families differ; for matching
IPv4 or IPv6 families it returns true exactly when the raw address bytes
agree (4 or 16 of them) and, when `compare_ports` is set, the encoded port
fields agree; records of any other common family are never equal. -/
theorem addr_is_equal_iff (a b : SockAddr) (cp : Bool) :
    addr_is_equal a b cp = true ↔
      a.sa_family = b.sa_family ∧
      ((a.sa_family = AF_INET ∧
          (∀ i < 4, byteAt a.addr4 i = byteAt b.addr4 i) ∧
          (cp = true → a.port = b.port)) ∨
        (a.sa_family = AF_INET6 ∧
          (∀ i < 16, byteAt a.addr6 i = byteAt b.addr6 i) ∧
          (cp = true → a.port = b.port))) := by
  unfold addr_is_equal
  split_ifs with h1 h2 h3 h4 h5 h6 h7 <;>
    simp_all [bytes_eq, AF_INET, AF_INET6]
  intro hb hall
  omega

/-- C2: mapping an IPv4 record to IPv4-mapped IPv6 and unmapping it back
succeeds in both steps and restores the original IPv4 address bytes and port
exactly, with the final length the IPv4 structure size; conversely, unmapping
a record that starts as an IPv4-mapped IPv6 record and mapping it again
restores the original 16 address bytes and port. -/
theorem v4mapped_roundtrip (sa : SockAddr) (len : Nat) :
    (sa.sa_family = AF_INET → sa.addr4.length = 4 →
      (addr_map_inet6_v4mapped sa len).1 = true ∧
      (addr_unmap_inet6_v4mapped (addr_map_inet6_v4mapped sa len).2.1
          (addr_map_inet6_v4mapped sa len).2.2).1 = true ∧
      (addr_unmap_inet6_v4mapped (addr_map_inet6_v4mapped sa len).2.1
          (addr_map_inet6_v4mapped sa len).2.2).2.1.addr4 = sa.addr4 ∧
      (addr_unmap_inet6_v4mapped (addr_map_inet6_v4mapped sa len).2.1
          (addr_map_inet6_v4mapped sa len).2.2).2.1.port = sa.port ∧
      (addr_unmap_inet6_v4mapped (addr_map_inet6_v4mapped sa len).2.1
          (addr_map_inet6_v4mapped sa len).2.2).2.2 = sizeof_sockaddr_in) ∧
    (sa.sa_family = AF_INET6 → sa.addr6.length = 16 →
      in6_is_addr_v4mapped sa.addr6 →
      (addr_unmap_inet6_v4mapped sa len).1 = true ∧
      (addr_map_inet6_v4mapped (addr_unmap_inet6_v4mapped sa len).2.1
          (addr_unmap_inet6_v4mapped sa len).2.2).1 = true ∧
      (addr_map_inet6_v4mapped (addr_unmap_inet6_v4mapped sa len).2.1
          (addr_unmap_inet6_v4mapped sa len).2.2).2.1.addr6 = sa.addr6 ∧
      (addr_map_inet6_v4mapped (addr_unmap_inet6_v4mapped sa len).2.1
          (addr_unmap_inet6_v4mapped sa len).2.2).2.1.port = sa.port) := by
  obtain ⟨fam, port, a4, a6, fl, sc⟩ := sa
  constructor
  · intro hfam hlen
    subst hfam
    exact ⟨rfl, rfl, (eq_four_bytes a4 hlen).symm, rfl, rfl⟩
  · intro hfam hlen hmapped
    subst hfam
    have h1 : addr_unmap_inet6_v4mapped ⟨AF_INET6, port, a4, a6, fl, sc⟩ len =
        (true,
         ⟨AF_INET, port,
          [byteAt a6 12, byteAt a6 13, byteAt a6 14, byteAt a6 15],
          List.replicate 16 0, 0, 0⟩,
         sizeof_sockaddr_in) := by
      unfold addr_unmap_inet6_v4mapped
      rw [if_neg (by simp), if_neg (by simpa using hmapped)]
    rw [h1]
    exact ⟨rfl, rfl, (v4mapped_bytes_eq a6 hlen hmapped).symm, rfl⟩

theorem v4mapped_roundtrip_witness :
    (sampleInet.sa_family = AF_INET ∧ sampleInet.addr4.length = 4 ∧
      sampleMapped.sa_family = AF_INET6 ∧ sampleMapped.addr6.length = 16 ∧
      in6_is_addr_v4mapped sampleMapped.addr6) ∧
    ((addr_map_inet6_v4mapped sampleInet 16).1 = true ∧
      (addr_unmap_inet6_v4mapped (addr_map_inet6_v4mapped sampleInet 16).2.1
          (addr_map_inet6_v4mapped sampleInet 16).2.2).1 = true ∧
      (addr_unmap_inet6_v4mapped (addr_map_inet6_v4mapped sampleInet 16).2.1
          (addr_map_inet6_v4mapped sampleInet 16).2.2).2.1.addr4 =
        sampleInet.addr4 ∧
      (addr_unmap_inet6_v4mapped (addr_map_inet6_v4mapped sampleInet 16).2.1
          (addr_map_inet6_v4mapped sampleInet 16).2.2).2.1.port =
        sampleInet.port ∧
      (addr_unmap_inet6_v4mapped (addr_map_inet6_v4mapped sampleInet 16).2.1
          (addr_map_inet6_v4mapped sampleInet 16).2.2).2.2 =
        sizeof_sockaddr_in) ∧
    ((addr_unmap_inet6_v4mapped sampleMapped 28).1 = true ∧
      (addr_map_inet6_v4mapped (addr_unmap_inet6_v4mapped sampleMapped 28).2.1
          (addr_unmap_inet6_v4mapped sampleMapped 28).2.2).1 = true ∧
      (addr_map_inet6_v4mapped (addr_unmap_inet6_v4mapped sampleMapped 28).2.1
          (addr_unmap_inet6_v4mapped sampleMapped 28).2.2).2.1.addr6 =
        sampleMapped.addr6 ∧
      (addr_map_inet6_v4mapped (addr_unmap_inet6_v4mapped sampleMapped 28).2.1
          (addr_unmap_inet6_v4mapped sampleMapped 28).2.2).2.1.port =
        sampleMapped.port) :=
  ⟨⟨rfl, rfl, rfl, rfl, by decide⟩,
   (v4mapped_roundtrip sampleInet 16).1 rfl rfl,
   (v4mapped_roundtrip sampleMapped 28).2 rfl rfl (by decide)⟩

/-- The write/count invariant of the addrinfo iteration of `addr_resolve`:
starting from write cursor `pos` and counter `ret`, the loop adds the number
of matching entries to the counter and overwrites the records from `pos` on
with the matching entries in order, up to the capacity, leaving the rest
untouched. -/
theorem addr_resolve_loop_spec (ais : List AddrInfo) :
    ∀ (recs : List AddrRecordT) (pos ret : Nat), pos ≤ recs.length →
    addr_resolve_loop ais recs pos ret =
      (ret + (ais.filter ai_matches).length,
       recs.take pos ++
         ((ais.filter ai_matches).map toRecord).take (recs.length - pos) ++
         recs.drop
           (pos + min (ais.filter ai_matches).length (recs.length - pos))) := by
  induction ais with
  | nil =>
    intro recs pos ret hpos
    simp [addr_resolve_loop, List.take_append_drop]
  | cons ai rest ih =>
    intro recs pos ret hpos
    by_cases hm : ai_matches ai
    · have hfilter : (ai :: rest).filter ai_matches =
          ai :: rest.filter ai_matches := by simp [List.filter_cons, hm]
      by_cases hlt : pos < recs.length
      · rw [show addr_resolve_loop (ai :: rest) recs pos ret =
            addr_resolve_loop rest (recs.set pos (toRecord ai)) (pos + 1)
              (ret + 1) by simp [addr_resolve_loop, hm, hlt]]
        rw [ih (recs.set pos (toRecord ai)) (pos + 1) (ret + 1)
          (by simp [List.length_set]; omega)]
        rw [hfilter]
        simp only [Prod.mk.injEq, List.length_set, List.length_cons,
          List.map_cons]
        refine ⟨by omega, ?_⟩
        have e1 : (recs.set pos (toRecord ai)).take (pos + 1) =
            recs.take pos ++ [toRecord ai] := set_take_succ recs pos _ hlt
        have e2 : recs.length - pos = (recs.length - (pos + 1)) + 1 := by
          omega
        have e3 : (toRecord ai :: (rest.filter ai_matches).map toRecord).take
            (recs.length - pos) =
            toRecord ai ::
              ((rest.filter ai_matches).map toRecord).take
                (recs.length - (pos + 1)) := by
          rw [e2, List.take_succ_cons]
        have e4 : pos + min ((rest.filter ai_matches).length + 1)
            (recs.length - pos) =
            (pos + 1) + min (rest.filter ai_matches).length
              (recs.length - (pos + 1)) := by omega
        have e5 : (recs.set pos (toRecord ai)).drop
            ((pos + 1) + min (rest.filter ai_matches).length
              (recs.length - (pos + 1))) =
            recs.drop
              ((pos + 1) + min (rest.filter ai_matches).length
                (recs.length - (pos + 1))) :=
          set_drop_of_lt recs pos _ (toRecord ai) (by omega)
        rw [e1, e3, e4, e5]
        simp [List.append_assoc]
      · have heq : recs.length - pos = 0 := by omega
        rw [show addr_resolve_loop (ai :: rest) recs pos ret =
            addr_resolve_loop rest recs pos (ret + 1) by
          simp [addr_resolve_loop, hm, hlt]]
        rw [ih recs pos (ret + 1) hpos, hfilter]
        simp only [Prod.mk.injEq, heq, List.take_zero, List.length_cons,
          Nat.min_zero, Nat.add_zero, List.append_nil]
        exact ⟨by omega, trivial⟩
    · rw [show addr_resolve_loop (ai :: rest) recs pos ret =
          addr_resolve_loop rest recs pos ret by
        simp [addr_resolve_loop, hm]]
      have hfilter : (ai :: rest).filter ai_matches =
          rest.filter ai_matches := by simp [List.filter_cons, hm]
      rw [hfilter, ih recs pos ret hpos]

/-- C1: when the platform resolver succeeds, `addr_resolve` returns the total
count of candidates whose family is IPv4 or IPv6 (even beyond the capacity),
writes exactly min(count, capacity) records in resolver order, never writes
past the capacity, and leaves the rest of the output unchanged. -/
theorem addr_resolve_success_spec
    (getaddrinfo : String → String → Option (List AddrInfo))
    (hostname service : String) (ais : List AddrInfo)
    (records : List AddrRecordT)
    (hok : getaddrinfo hostname service = some ais) :
    addr_resolve getaddrinfo hostname service records =
      (((ais.filter ai_matches).length : Int),
       ((ais.filter ai_matches).map toRecord).take records.length ++
         records.drop (min (ais.filter ai_matches).length records.length)) ∧
    (addr_resolve getaddrinfo hostname service records).2.length =
      records.length := by
  have hloop := addr_resolve_loop_spec ais records 0 0 (by omega)
  have hres : addr_resolve getaddrinfo hostname service records =
      (((addr_resolve_loop ais records 0 0).1 : Int),
        (addr_resolve_loop ais records 0 0).2) := by
    unfold addr_resolve
    rw [hok]
  refine ⟨?_, ?_⟩ <;> rw [hres, hloop]
  · simp
  · simp [List.length_take, List.length_drop]
    omega

/-- A concrete resolver outcome: one IPv4 result, one non-IP result (skipped
by the copy loop), one IPv6 result. -/
def sampleAis : List AddrInfo :=
  [⟨AF_INET, sampleInet, 16⟩, ⟨1, sampleUnknownFam, 5⟩,
   ⟨AF_INET6, sampleInet6, 28⟩]

/-- A resolver collaborator that always succeeds with `sampleAis`. -/
def okResolver : String → String → Option (List AddrInfo) :=
  fun _ _ => some sampleAis

theorem addr_resolve_success_spec_witness :
    okResolver "localhost" "3478" = some sampleAis ∧
    (addr_resolve okResolver "localhost" "3478" [blankRecord] =
      (((sampleAis.filter ai_matches).length : Int),
       ((sampleAis.filter ai_matches).map toRecord).take
           [blankRecord].length ++
         [blankRecord].drop
           (min (sampleAis.filter ai_matches).length [blankRecord].length)) ∧
     (addr_resolve okResolver "localhost" "3478" [blankRecord]).2.length =
       [blankRecord].length) :=
  ⟨rfl, addr_resolve_success_spec okResolver "localhost" "3478" sampleAis
    [blankRecord] rfl⟩
